import Mathlib

/-!
Verification of the natural-language command parser of a Drupal management
agent.  The development shallowly embeds the two parser variants
(`parsers/intent_parser.py` and the `NLParser` in `main.py`) and the
parameter extractor (`parsers/parameter_extractor.py`).

Python regular-expression search (`re.search`) is embedded by transcribing
each pattern of the source into an explicit regex AST and running a
backtracking matcher with Python's semantics: leftmost starting position,
left alternative first, greedy (or lazy, for `+?`) repetition, capture
groups recording the consumed substring.  The inputs handed to `re.search`
are already lowercased by the parser, so the `re.IGNORECASE` flag of the
source is inert on the alphabets involved and is not modelled separately.
-/

/-- Python `str` whitespace (`str.split`, `str.strip`): space, tab,
newline, carriage return, vertical tab, form feed. -/
def pyIsSpace (c : Char) : Bool :=
  c = ' ' || c = '\t' || c = '\n' || c = '\r' || c = '\x0b' || c = '\x0c'

/-- ASCII lowercasing, as `str.lower` acts on the ASCII inputs at stake. -/
def pyLowerChar (c : Char) : Char := c.toLower

def pyLowerList (l : List Char) : List Char := l.map pyLowerChar

/-- Python `str.strip()` on a character list: drop whitespace at both ends. -/
def pyStripList (l : List Char) : List Char :=
  ((l.dropWhile pyIsSpace).reverse.dropWhile pyIsSpace).reverse

def pyStrip (s : String) : String := ⟨pyStripList s.data⟩

/-- The normalization done at the top of both `parse` methods:
`command_text.lower().strip()`. -/
def pyNormalize (s : String) : String := ⟨pyStripList (pyLowerList s.data)⟩

/-- Substring containment, Python's `needle in haystack`. -/
def startsWithL : List Char → List Char → Bool
  | _, [] => true
  | [], _ :: _ => false
  | c :: cs, d :: ds => c = d && startsWithL cs ds

def containsSub : List Char → List Char → Bool
  | [], n => n.isEmpty
  | c :: cs, n => startsWithL (c :: cs) n || containsSub cs n

/-! ## Regex engine -/

/-- Capture groups: group number to captured characters. -/
abbrev Caps := List (Nat × List Char)

/-- Regex AST covering the constructs used by the source's patterns. -/
inductive RE where
  | eps
  | cls (p : Char → Bool)
  | seq (a b : RE)
  | alt (a b : RE)
  | star (greedy : Bool) (a : RE)
  | grp (n : Nat) (a : RE)

def capsSet (cs : Caps) (n : Nat) (v : List Char) : Caps :=
  match cs with
  | [] => [(n, v)]
  | (m, w) :: rest => if m = n then (n, v) :: rest else (m, w) :: capsSet rest n v

/-- Backtracking CPS matcher.  `fuel` bounds the recursion depth; the
repetition case only re-enters when the body consumed input, matching
Python's refusal to loop on empty repetition matches. -/
def mtch : Nat → RE → List Char → Caps → (List Char → Caps → Option Caps) → Option Caps
  | 0, _, _, _, _ => none
  | f + 1, re, s, cs, k =>
    match re with
    | .eps => k s cs
    | .cls p =>
      match s with
      | [] => none
      | c :: rest => if p c then k rest cs else none
    | .seq a b => mtch f a s cs (fun s2 cs2 => mtch f b s2 cs2 k)
    | .alt a b => (mtch f a s cs k) <|> (mtch f b s cs k)
    | .star g a =>
      let rep := mtch f a s cs (fun s2 cs2 =>
        if s2.length < s.length then mtch f (.star g a) s2 cs2 k else none)
      if g then rep <|> k s cs else (k s cs) <|> rep
    | .grp n a =>
      mtch f a s cs (fun s2 cs2 => k s2 (capsSet cs2 n (s.take (s.length - s2.length))))

/-- `re.search`: try each start position from the left; succeed at the first
position where the pattern matches. -/
def reSearchAux (r : RE) (fuel : Nat) : List Char → Option Caps
  | [] => mtch fuel r [] [] (fun _ cs => some cs)
  | c :: rest =>
    match mtch fuel r (c :: rest) [] (fun _ cs => some cs) with
    | some cs => some cs
    | none => reSearchAux r fuel rest

def reSearch (r : RE) (s : List Char) : Option Caps :=
  reSearchAux r (600 + 60 * s.length) s

/-- `match.group(n)` of the patterns at stake (always present on success). -/
def grpStr (cs : Caps) (n : Nat) : String := ⟨(cs.lookup n).getD []⟩

/-! ### Pattern combinators mirroring the regex syntax of the source -/

def lit1 (c : Char) : RE := .cls (fun x => x = c)

def litL : List Char → RE
  | [] => .eps
  | c :: cs => .seq (lit1 c) (litL cs)

/-- A literal string. -/
def lit (s : String) : RE := litL s.data

/-- `.` (no DOTALL: anything but newline). -/
def dot : RE := .cls (fun c => c ≠ '\n')

def dotStar : RE := .star true dot

def wsCls : RE := .cls pyIsSpace

/-- `\s+`. -/
def wsPlus : RE := .seq wsCls (.star true wsCls)

def digCls : RE := .cls Char.isDigit

/-- `\w`: `[a-zA-Z0-9_]`. -/
def wordCls : RE := .cls (fun c => c.isAlphanum || c = '_')

/-- `['\"]`. -/
def quoteCls : RE := .cls (fun c => c = '\'' || c = '"')

/-- `[a-zA-Z0-9\-_]`. -/
def projCls : RE := .cls (fun c => c.isAlphanum || c = '-' || c = '_')

/-- Greedy `X?`. -/
def reOpt (a : RE) : RE := .alt a .eps

/-- `X+` (greedy when `g`). -/
def rePlus (g : Bool) (a : RE) : RE := .seq a (.star g a)

def cat : List RE → RE
  | [] => .eps
  | [r] => r
  | r :: rs => .seq r (cat rs)

def alts : List RE → RE
  | [] => .eps
  | [r] => r
  | r :: rs => .alt r (alts rs)

/-- `s?` (an optional literal `s`). -/
def optS : RE := reOpt (lit1 's')

/-! ## The IntentParser pattern table (`parsers/intent_parser.py`) -/

structure Rule where
  pat : RE
  intent : String
  ptype : String

def commandPatterns : List Rule := [
  -- create.*(?:post|article|blog).*about\s+(.+)
  ⟨cat [lit "create", dotStar, alts [lit "post", lit "article", lit "blog"], dotStar,
        lit "about", wsPlus, .grp 1 (rePlus true dot)], "create-post", "topic"⟩,
  -- create.*(?:post|article|blog).*titled?\s+['\"](.+)['\"]
  ⟨cat [lit "create", dotStar, alts [lit "post", lit "article", lit "blog"], dotStar,
        lit "title", reOpt (lit1 'd'), wsPlus, quoteCls, .grp 1 (rePlus true dot), quoteCls],
   "create-post", "title"⟩,
  -- generate.*(?:content|article).*using\s+(\w+).*about\s+(.+)
  ⟨cat [lit "generate", dotStar, alts [lit "content", lit "article"], dotStar,
        lit "using", wsPlus, .grp 1 (rePlus true wordCls), dotStar,
        lit "about", wsPlus, .grp 2 (rePlus true dot)], "create-post", "ai_content"⟩,
  -- edit.*(?:title|node)\s+(\d+).*to\s+['\"](.+)['\"]
  ⟨cat [lit "edit", dotStar, alts [lit "title", lit "node"], wsPlus,
        .grp 1 (rePlus true digCls), dotStar, lit "to", wsPlus, quoteCls,
        .grp 2 (rePlus true dot), quoteCls], "edit-node", "title"⟩,
  -- update.*node\s+(\d+).*body.*['\"](.+)['\"]
  ⟨cat [lit "update", dotStar, lit "node", wsPlus, .grp 1 (rePlus true digCls), dotStar,
        lit "body", dotStar, quoteCls, .grp 2 (rePlus true dot), quoteCls],
   "edit-node", "body"⟩,
  -- delete.*node\s+(\d+)
  ⟨cat [lit "delete", dotStar, lit "node", wsPlus, .grp 1 (rePlus true digCls)],
   "delete-node", "node_id"⟩,
  -- upload\s+(.+?)\s+.*alt.*['\"](.+)['\"]
  ⟨cat [lit "upload", wsPlus, .grp 1 (rePlus false dot), wsPlus, dotStar,
        lit "alt", dotStar, quoteCls, .grp 2 (rePlus true dot), quoteCls],
   "upload-media", "file_alt"⟩,
  -- upload\s+(.+)
  ⟨cat [lit "upload", wsPlus, .grp 1 (rePlus true dot)], "upload-media", "file"⟩,
  -- clear.*cache
  ⟨cat [lit "clear", dotStar, lit "cache"], "run-drush", "cache-clear"⟩,
  -- rebuild.*cache
  ⟨cat [lit "rebuild", dotStar, lit "cache"], "run-drush", "cache-rebuild"⟩,
  -- run\s+cron
  ⟨cat [lit "run", wsPlus, lit "cron"], "run-drush", "cron"⟩,
  -- drush\s+(.+)
  ⟨cat [lit "drush", wsPlus, .grp 1 (rePlus true dot)], "run-drush", "custom"⟩,
  -- enable.*module\s+(.+)
  ⟨cat [lit "enable", dotStar, lit "module", wsPlus, .grp 1 (rePlus true dot)],
   "run-drush", "enable-module"⟩,
  -- disable.*module\s+(.+)
  ⟨cat [lit "disable", dotStar, lit "module", wsPlus, .grp 1 (rePlus true dot)],
   "run-drush", "disable-module"⟩,
  -- show.*(?:titles?|list).*(?:latest|recent)\s+(\d+)\s+(?:blog\s+)?posts?
  ⟨cat [lit "show", dotStar, alts [cat [lit "title", optS], lit "list"], dotStar,
        alts [lit "latest", lit "recent"], wsPlus, .grp 1 (rePlus true digCls), wsPlus,
        reOpt (cat [lit "blog", wsPlus]), lit "post", optS], "query-graphql", "latest_posts"⟩,
  -- get.*(?:latest|recent)\s+(\d+)\s+(?:articles?|posts?)
  ⟨cat [lit "get", dotStar, alts [lit "latest", lit "recent"], wsPlus,
        .grp 1 (rePlus true digCls), wsPlus,
        alts [cat [lit "article", optS], cat [lit "post", optS]]],
   "query-graphql", "latest_posts"⟩,
  -- find.*(?:posts?|articles?|nodes?).*about\s+(.+)
  ⟨cat [lit "find", dotStar,
        alts [cat [lit "post", optS], cat [lit "article", optS], cat [lit "node", optS]],
        dotStar, lit "about", wsPlus, .grp 1 (rePlus true dot)],
   "query-graphql", "search_term"⟩,
  -- search.*(?:for\s+)?content.*about\s+(.+)
  ⟨cat [lit "search", dotStar, reOpt (cat [lit "for", wsPlus]), lit "content", dotStar,
        lit "about", wsPlus, .grp 1 (rePlus true dot)], "query-graphql", "search_term"⟩,
  -- fetch.*(?:article|node).*bodies?.*containing.*word\s+['\"]?(\w+)['\"]?
  ⟨cat [lit "fetch", dotStar, alts [lit "article", lit "node"], dotStar,
        lit "bodie", optS, dotStar, lit "containing", dotStar, lit "word", wsPlus,
        reOpt quoteCls, .grp 1 (rePlus true wordCls), reOpt quoteCls],
   "query-graphql", "content_search"⟩,
  -- query.*nodes.*(?:type|content_type)\s+['\"]?(\w+)['\"]?
  ⟨cat [lit "query", dotStar, lit "nodes", dotStar, alts [lit "type", lit "content_type"],
        wsPlus, reOpt quoteCls, .grp 1 (rePlus true wordCls), reOpt quoteCls],
   "query-graphql", "type_filter"⟩,
  -- get.*nodes.*tagged.*['\"](.+)['\"]
  ⟨cat [lit "get", dotStar, lit "nodes", dotStar, lit "tagged", dotStar, quoteCls,
        .grp 1 (rePlus true dot), quoteCls], "query-graphql", "tagged_content"⟩,
  -- get.*(?:all\s+)?users.*with\s+role\s+['\"]?(\w+)['\"]?
  ⟨cat [lit "get", dotStar, reOpt (cat [lit "all", wsPlus]), lit "users", dotStar,
        lit "with", wsPlus, lit "role", wsPlus, reOpt quoteCls,
        .grp 1 (rePlus true wordCls), reOpt quoteCls], "query-graphql", "users_by_role"⟩,
  -- show.*users.*with\s+role\s+(\w+)
  ⟨cat [lit "show", dotStar, lit "users", dotStar, lit "with", wsPlus, lit "role", wsPlus,
        .grp 1 (rePlus true wordCls)], "query-graphql", "users_by_role"⟩,
  -- list.*(?:all\s+)?(\w+)s?
  ⟨cat [lit "list", dotStar, reOpt (cat [lit "all", wsPlus]), .grp 1 (rePlus true wordCls),
        optS], "query-graphql", "users_by_role"⟩,
  -- create.*site.*named?\s+([a-zA-Z0-9\-_]+)
  ⟨cat [lit "create", dotStar, lit "site", dotStar, lit "name", reOpt (lit1 'd'), wsPlus,
        .grp 1 (rePlus true projCls)], "create-site", "project"⟩,
  -- create.*(?:new|site).*(?:ddev|lando).*named?\s+['\"]?(.+?)['\"]?
  ⟨cat [lit "create", dotStar, alts [lit "new", lit "site"], dotStar,
        alts [lit "ddev", lit "lando"], dotStar, lit "name", reOpt (lit1 'd'), wsPlus,
        reOpt quoteCls, .grp 1 (rePlus false dot), reOpt quoteCls], "create-site", "project"⟩,
  -- create.*(?:site|new).*named?\s+([a-zA-Z0-9\-_]+).*(?:using|with)\s+(?:ddev|lando)
  ⟨cat [lit "create", dotStar, alts [lit "site", lit "new"], dotStar,
        lit "name", reOpt (lit1 'd'), wsPlus, .grp 1 (rePlus true projCls), dotStar,
        alts [lit "using", lit "with"], wsPlus, alts [lit "ddev", lit "lando"]],
   "create-site", "project"⟩,
  -- setup.*(?:ddev|lando).*site.*['\"]?(.+?)['\"]?
  ⟨cat [lit "setup", dotStar, alts [lit "ddev", lit "lando"], dotStar, lit "site", dotStar,
        reOpt quoteCls, .grp 1 (rePlus false dot), reOpt quoteCls], "create-site", "project"⟩,
  -- restart\s+(?:site\s+)?([a-zA-Z0-9\-_]+)
  ⟨cat [lit "restart", wsPlus, reOpt (cat [lit "site", wsPlus]), .grp 1 (rePlus true projCls)],
   "restart-site", "project"⟩,
  -- restart.*(?:site|project)\s+([a-zA-Z0-9\-_]+)
  ⟨cat [lit "restart", dotStar, alts [lit "site", lit "project"], wsPlus,
        .grp 1 (rePlus true projCls)], "restart-site", "project"⟩,
  -- start\s+(?:site\s+)?([a-zA-Z0-9\-_]+)
  ⟨cat [lit "start", wsPlus, reOpt (cat [lit "site", wsPlus]), .grp 1 (rePlus true projCls)],
   "start-site", "project"⟩,
  -- start.*(?:site|project)\s+([a-zA-Z0-9\-_]+)
  ⟨cat [lit "start", dotStar, alts [lit "site", lit "project"], wsPlus,
        .grp 1 (rePlus true projCls)], "start-site", "project"⟩,
  -- stop\s+(?:site\s+)?([a-zA-Z0-9\-_]+)
  ⟨cat [lit "stop", wsPlus, reOpt (cat [lit "site", wsPlus]), .grp 1 (rePlus true projCls)],
   "stop-site", "project"⟩,
  -- stop.*(?:site|project)\s+([a-zA-Z0-9\-_]+)
  ⟨cat [lit "stop", dotStar, alts [lit "site", lit "project"], wsPlus,
        .grp 1 (rePlus true projCls)], "stop-site", "project"⟩,
  -- status\s+(?:of\s+)?(?:site\s+)?([a-zA-Z0-9\-_]+)
  ⟨cat [lit "status", wsPlus, reOpt (cat [lit "of", wsPlus]), reOpt (cat [lit "site", wsPlus]),
        .grp 1 (rePlus true projCls)], "status-site", "project"⟩,
  -- status.*(?:of|for)\s+(?:site\s+)?([a-zA-Z0-9\-_]+)
  ⟨cat [lit "status", dotStar, alts [lit "of", lit "for"], wsPlus,
        reOpt (cat [lit "site", wsPlus]), .grp 1 (rePlus true projCls)],
   "status-site", "project"⟩]

/-! ## Parameter values and extraction (`IntentParser._extract_params`) -/

/-- Parameter values: the source stores strings, integers (from `int(...)`)
and string lists (split tags) in the params dict. -/
inductive PVal where
  | s (v : String)
  | n (v : Int)
  | l (v : List String)
  deriving DecidableEq

abbrev Params := List (String × PVal)

/-- Python `int` on a `\d+` capture (always digits, never fails here). -/
def pyInt (s : String) : Int := ((s.toNat?).getD 0 : Nat)

/-- Python `str.strip()`. -/
def pyStripStr (s : String) : String := pyStrip s

/-- Python `s.split(',')` followed by stripping each piece
(`[tag.strip() for tag in match.group(1).split(',')]`). -/
def splitComma (l : List Char) : List (List Char) :=
  match l with
  | [] => [[]]
  | c :: cs =>
    match splitComma cs with
    | [] => [[]]
    | piece :: rest => if c = ',' then [] :: piece :: rest else (c :: piece) :: rest

def pySplitCommaStrip (s : String) : List String :=
  (splitComma s.data).map (fun p => (⟨pyStripList p⟩ : String))

/-- `IntentParser._extract_params` (intent_parser.py lines 92-170),
transcribed branch by branch.  `original` is the normalized command text
(used by the create-site branch to look for the substring "lando"). -/
def extractParams (intent ptype : String) (cs : Caps) (original : String) :
    String × Params :=
  let params : Params :=
    if intent = "create-post" then
      if ptype = "topic" then [("topic", .s (pyStripStr (grpStr cs 1)))]
      else if ptype = "title" then [("title", .s (pyStripStr (grpStr cs 1)))]
      else if ptype = "ai_content" then
        [("topic", .s (pyStripStr (grpStr cs 2))),
         ("ai_provider", .s (pyStripStr (grpStr cs 1)))]
      else []
    else if intent = "edit-node" then
      if ptype = "title" then
        [("node_id", .n (pyInt (grpStr cs 1))), ("title", .s (pyStripStr (grpStr cs 2)))]
      else if ptype = "body" then
        [("node_id", .n (pyInt (grpStr cs 1))), ("body", .s (pyStripStr (grpStr cs 2)))]
      else []
    else if intent = "delete-node" then
      if ptype = "node_id" then [("node_id", .n (pyInt (grpStr cs 1)))] else []
    else if intent = "upload-media" then
      if ptype = "file_alt" then
        [("file_path", .s (pyStripStr (grpStr cs 1))),
         ("alt_text", .s (pyStripStr (grpStr cs 2)))]
      else if ptype = "file" then [("file_path", .s (pyStripStr (grpStr cs 1)))]
      else []
    else if intent = "run-drush" then
      if ptype = "cache-clear" then [("command", .s "cache:clear")]
      else if ptype = "cache-rebuild" then [("command", .s "cache:rebuild")]
      else if ptype = "cron" then [("command", .s "cron:run")]
      else if ptype = "custom" then [("command", .s (pyStripStr (grpStr cs 1)))]
      else if ptype = "enable-module" then
        [("command", .s "pm:enable"), ("module", .s (pyStripStr (grpStr cs 1)))]
      else if ptype = "disable-module" then
        [("command", .s "pm:disable"), ("module", .s (pyStripStr (grpStr cs 1)))]
      else []
    else if intent = "query-graphql" then
      if ptype = "latest_posts" then
        [("query_type", .s "latest_nodes"), ("content_type", .s "article"),
         ("limit", .n (pyInt (grpStr cs 1)))]
      else if ptype = "search_term" then
        [("query_type", .s "search_nodes"), ("search_term", .s (pyStripStr (grpStr cs 1)))]
      else if ptype = "content_search" then
        [("query_type", .s "search_nodes"), ("search_term", .s (pyStripStr (grpStr cs 1)))]
      else if ptype = "type_filter" then
        [("query_type", .s "latest_nodes"), ("content_type", .s (pyStripStr (grpStr cs 1)))]
      else if ptype = "users_by_role" then
        [("query_type", .s "users_by_role"), ("role", .s (pyStripStr (grpStr cs 1)))]
      else if ptype = "tagged_content" then
        [("query_type", .s "nodes_with_tags"), ("tags", .l (pySplitCommaStrip (grpStr cs 1)))]
      else []
    else if intent = "create-site" then
      if ptype = "project" then
        [("project_name", .s (pyStripStr (grpStr cs 1))),
         ("platform", .s (if containsSub original.data "lando".data then "lando" else "ddev"))]
      else []
    else if intent = "start-site" || intent = "stop-site" || intent = "restart-site"
            || intent = "status-site" then
      if ptype = "project" then [("project_name", .s (pyStripStr (grpStr cs 1)))] else []
    else []
  (intent, params)

/-! ## Fallback resolver model (`IntentParser._ai_parse_fallback`) -/

/-- Outcome of one fallback attempt, abstracting the generative provider
call and the `json.loads` decode of its reply:
`fail` — `generate_content` (or anything inside the outer `try`) raised;
`badJson` — the reply was not parseable JSON (`json.JSONDecodeError`);
`parsed i p` — the decoded object, with `i`/`p` the results of
`parsed.get("intent")` / `parsed.get("params")` (`none` when the key is
absent). -/
inductive AIReply where
  | fail
  | badJson
  | parsed (intent : Option String) (params : Option Params)
  deriving DecidableEq

/-- The generative provider plus JSON decode, modelled as an oracle keyed by
the normalized command text (the prompt is a fixed decoration of it). -/
structure AIEnv where
  reply : String → AIReply

/-- `IntentParser._ai_parse_fallback` (intent_parser.py lines 172-204). -/
def aiParseFallback (env : AIEnv) (commandText : String) : String × Params :=
  match env.reply commandText with
  | .fail => ("unknown", [("raw_command", .s commandText)])
  | .badJson => ("unknown", [("raw_command", .s commandText)])
  | .parsed i p => (i.getD "unknown", p.getD [])

/-! ## `IntentParser.parse` -/

/-- Scan the ordered rule table, returning the index, intent, template tag
and captures of the first rule whose pattern is found in the text. -/
def findRule : Nat → List Rule → List Char → Option (Nat × String × String × Caps)
  | _, [], _ => none
  | i, r :: rs, s =>
    match reSearch r.pat s with
    | some cs => some (i, r.intent, r.ptype, cs)
    | none => findRule (i + 1) rs s

/-- `IntentParser.parse` (intent_parser.py lines 71-90): normalize, scan the
pattern table in declaration order, extract on first match, otherwise
delegate to the fallback resolver. -/
def IntentParser.parse (env : AIEnv) (commandText : String) : String × Params :=
  let t := pyNormalize commandText
  match findRule 0 commandPatterns t.data with
  | some (_, intent, ptype, cs) => extractParams intent ptype cs t
  | none => aiParseFallback env t

/-! ## The `NLParser` variant in `main.py` (lines 487-584) -/

def nlCommandPatterns : List Rule := [
  ⟨cat [lit "create", dotStar, alts [lit "post", lit "article", lit "blog"], dotStar,
        lit "about", wsPlus, .grp 1 (rePlus true dot)], "create-post", "topic"⟩,
  ⟨cat [lit "create", dotStar, alts [lit "post", lit "article", lit "blog"], dotStar,
        lit "title", reOpt (lit1 'd'), wsPlus, quoteCls, .grp 1 (rePlus true dot), quoteCls],
   "create-post", "title"⟩,
  ⟨cat [lit "generate", dotStar, alts [lit "content", lit "article"], dotStar,
        lit "using", wsPlus, .grp 1 (rePlus true wordCls), dotStar,
        lit "about", wsPlus, .grp 2 (rePlus true dot)], "create-post", "ai_content"⟩,
  ⟨cat [lit "clear", dotStar, lit "cache"], "run-drush", "cache-clear"⟩,
  ⟨cat [lit "run", wsPlus, lit "cron"], "run-drush", "cron"⟩,
  ⟨cat [lit "drush", wsPlus, .grp 1 (rePlus true dot)], "run-drush", "custom"⟩,
  ⟨cat [lit "edit", dotStar, alts [lit "title", lit "node"], wsPlus,
        .grp 1 (rePlus true digCls), dotStar, lit "to", wsPlus, quoteCls,
        .grp 2 (rePlus true dot), quoteCls], "edit-node", "title"⟩,
  ⟨cat [lit "upload", wsPlus, .grp 1 (rePlus false dot), wsPlus, dotStar,
        lit "alt", dotStar, quoteCls, .grp 2 (rePlus true dot), quoteCls],
   "upload-media", "file_alt"⟩,
  ⟨cat [lit "upload", wsPlus, .grp 1 (rePlus true dot)], "upload-media", "file"⟩,
  ⟨cat [lit "create", dotStar, alts [lit "new", lit "site"], dotStar,
        alts [lit "ddev", lit "lando"], dotStar, lit "name", reOpt (lit1 'd'), wsPlus,
        reOpt quoteCls, .grp 1 (rePlus false dot), reOpt quoteCls], "create-site", "project"⟩]

/-- `NLParser._extract_params` (main.py lines 517-556).  Note two deliberate
differences from `IntentParser._extract_params`: the cache-clear template
maps to the command `cache:rebuild`, and the edit-node branch stores
`node_id` as the raw captured string (no `int(...)`). -/
def nlExtractParams (intent ptype : String) (cs : Caps) (original : String) :
    String × Params :=
  let params : Params :=
    if intent = "create-post" then
      if ptype = "topic" then [("topic", .s (pyStripStr (grpStr cs 1)))]
      else if ptype = "title" then [("title", .s (pyStripStr (grpStr cs 1)))]
      else if ptype = "ai_content" then
        [("topic", .s (pyStripStr (grpStr cs 2))),
         ("ai_provider", .s (pyStripStr (grpStr cs 1)))]
      else []
    else if intent = "run-drush" then
      if ptype = "cache-clear" then [("command", .s "cache:rebuild")]
      else if ptype = "cron" then [("command", .s "cron:run")]
      else if ptype = "custom" then [("command", .s (pyStripStr (grpStr cs 1)))]
      else []
    else if intent = "edit-node" then
      if ptype = "title" then
        [("node_id", .s (grpStr cs 1)), ("title", .s (pyStripStr (grpStr cs 2)))]
      else []
    else if intent = "upload-media" then
      if ptype = "file_alt" then
        [("file_path", .s (pyStripStr (grpStr cs 1))),
         ("alt_text", .s (pyStripStr (grpStr cs 2)))]
      else if ptype = "file" then [("file_path", .s (pyStripStr (grpStr cs 1)))]
      else []
    else if intent = "create-site" then
      if ptype = "project" then
        [("project_name", .s (pyStripStr (grpStr cs 1))),
         ("platform", .s (if containsSub original.data "lando".data then "lando" else "ddev"))]
      else []
    else []
  (intent, params)

/-- `NLParser.parse` (main.py lines 505-515). -/
def NLParser.parse (env : AIEnv) (commandText : String) : String × Params :=
  let t := pyNormalize commandText
  match findRule 0 nlCommandPatterns t.data with
  | some (_, intent, ptype, cs) => nlExtractParams intent ptype cs t
  | none => aiParseFallback env t

/-! ## ParameterExtractor (`parsers/parameter_extractor.py`) -/

/-- Non-whitespace, the word characters of Python `str.split()`. -/
def nwChar (c : Char) : Bool := !pyIsSpace c

def consRun (c : Char) : List (List Char) → List (List Char)
  | [] => [[c]]
  | t :: ts => (c :: t) :: ts

/-- One step of `runsBy`: how character `c` combines with the lookahead
`h` (the next character, when any) and the runs `r` of the tail. -/
def runsByF (p : Char → Bool) (c : Char) (h : Option Char) (r : List (List Char)) :
    List (List Char) :=
  if p c then
    match h with
    | none => [[c]]
    | some d => if p d then consRun c r else [c] :: r
  else r

/-- Maximal runs of characters satisfying `p` (everything else is a
separator and is dropped); `runsBy nwChar` is Python `str.split()`. -/
def runsBy (p : Char → Bool) : List Char → List (List Char)
  | [] => []
  | c :: cs => runsByF p c cs.head? (runsBy p cs)

/-- `' '.join(words)`. -/
def joinWS : List (List Char) → List Char
  | [] => []
  | [w] => w
  | w :: ws => w ++ ' ' :: joinWS ws

/-- `text.startswith(q) and text.endswith(q)` for a quote character. -/
def wrappedIn (q : Char) (l : List Char) : Bool :=
  match l with
  | [] => false
  | c :: cs => c = q && (c :: cs).getLast? = some q

/-- The conditional quote stripping `text[1:-1]` of `_clean_text`. -/
def unquote (l : List Char) : List Char :=
  if wrappedIn '"' l || wrappedIn '\'' l then l.tail.dropLast else l

/-- `ParameterExtractor._clean_text` on a string (lines 178-190):
collapse whitespace via split/join, strip one wrapping quote pair, strip. -/
def cleanTextList (l : List Char) : List Char :=
  pyStripList (unquote (joinWS (runsBy nwChar l)))

def cleanText (s : String) : String := ⟨cleanTextList s.data⟩

/-- Python `str.capitalize()`: first character uppercased, rest lowercased. -/
def pyCapitalize (l : List Char) : List Char :=
  match l with
  | [] => []
  | c :: cs => c.toUpper :: cs.map pyLowerChar

/-- `ParameterExtractor._topic_to_title` (lines 205-210). -/
def topicToTitle (s : String) : String :=
  ⟨joinWS ((runsBy nwChar (cleanTextList s.data)).map pyCapitalize)⟩

/-- `os.path.basename` on a POSIX path. -/
def basenameL (l : List Char) : List Char := (l.reverse.takeWhile (· ≠ '/')).reverse

/-- The root part of `os.path.splitext`: split at the last dot unless every
character before it is a dot (leading-dot filenames keep their name). -/
def splitextRootL (b : List Char) : List Char :=
  match b.reverse.dropWhile (· ≠ '.') with
  | [] => b
  | _ :: preRev => if preRev.any (· ≠ '.') then preRev.reverse else b

def sepChar (c : Char) : Bool := c = '_' || c = '-'

/-- `re.sub(r'[_-]+', ' ', name)`: each run of underscores/hyphens becomes
one space. -/
def subSep : List Char → List Char
  | [] => []
  | c :: cs =>
    if sepChar c then
      match cs.head? with
      | none => [' ']
      | some d => if sepChar d then subSep cs else ' ' :: subSep cs
    else c :: subSep cs

/-- `ParameterExtractor._filename_to_title` (lines 212-223). -/
def filenameToTitle (fp : String) : String :=
  topicToTitle ⟨subSep (splitextRootL (basenameL fp.data))⟩

/-- Python `repr` of a list of plain strings, the value of `str(tags)` as it
would be produced for the non-string fallbacks of `_clean_text`. -/
def pyReprStrList (xs : List String) : String :=
  "[" ++ String.intercalate ", " (xs.map (fun x => "'" ++ x ++ "'")) ++ "]"

/-- Python `str(x)` on a parameter value. -/
def pvalStr : PVal → String
  | .s v => v
  | .n v => toString v
  | .l v => pyReprStrList v

/-- `_clean_text` on an arbitrary value: non-strings short-circuit to
`str(x)`. -/
def pvalCleanText : PVal → PVal
  | .s v => .s (cleanText v)
  | v => .s (pvalStr v)

def isTagSep (c : Char) : Bool := c = ',' || c = ';' || c = '|'

/-- `re.split(r'[,;|]', s)` (keeps empty pieces). -/
def splitSeps : List Char → List (List Char)
  | [] => [[]]
  | c :: cs =>
    match splitSeps cs with
    | [] => [[]]
    | p :: rest => if isTagSep c then [] :: p :: rest else (c :: p) :: rest

/-- `ParameterExtractor._extract_tags` (lines 225-235). -/
def extractTags : PVal → List String
  | .l xs => (xs.filter (fun t => !(t = ""))).map cleanText
  | .s v => (((splitSeps v.data).map (fun p => (⟨p⟩ : String))).filter
      (fun t => !(pyStripStr t = ""))).map cleanText
  | .n _ => []

/-- Lowercase letters and digits, the characters kept verbatim by the slug
character class. -/
def isLD (c : Char) : Bool := ('a' ≤ c && c ≤ 'z') || ('0' ≤ c && c ≤ '9')

/-- The character class `[a-z0-9-]` of `_clean_project_name`. -/
def slugKeep (c : Char) : Bool := isLD c || c = '-'

/-- `re.sub(r'[^a-z0-9-]', '-', name)`. -/
def slugMap (l : List Char) : List Char :=
  l.map (fun c => if slugKeep c then c else '-')

/-- One step of `collapseH` with explicit lookahead. -/
def collapseF (c : Char) (h : Option Char) (r : List Char) : List Char :=
  match h with
  | none => [c]
  | some d => if c = '-' && d = '-' then r else c :: r

/-- `re.sub(r'-+', '-', name)`: collapse hyphen runs. -/
def collapseH : List Char → List Char
  | [] => []
  | c :: cs => collapseF c cs.head? (collapseH cs)

/-- `name.strip('-')`. -/
def stripH (l : List Char) : List Char :=
  ((l.dropWhile (· = '-')).reverse.dropWhile (· = '-')).reverse

/-- `ParameterExtractor._clean_project_name` on a string (lines 237-248). -/
def cleanProjectName (s : String) : String :=
  ⟨stripH (collapseH (slugMap (pyLowerList (cleanTextList s.data))))⟩

/-- The slug described by the specification: lowercase, replace every
character outside `[a-z0-9-]` with a hyphen, collapse hyphen runs, strip
leading/trailing hyphens — with no whitespace/quote pre-cleaning step. -/
def specSlug (s : String) : String :=
  ⟨stripH (collapseH (slugMap (pyLowerList s.data)))⟩

/-- `_clean_project_name` on an arbitrary value (`_clean_text` maps
non-strings to `str(x)` untouched before the slug steps). -/
def cleanProjectNameP : PVal → String
  | .s v => cleanProjectName v
  | v => ⟨stripH (collapseH (slugMap (pyLowerList (pvalStr v).data)))⟩

/-- `ParameterExtractor.extract_media_params` (lines 79-95).  A non-string
`file_path` makes Python's `.strip()` raise; both raising paths are the
`Except.error` results. -/
def extract_media_params (params : Params) : Except String Params :=
  match params.lookup "file_path" with
  | none => .error "File path is required for media upload"
  | some (.n _) => .error "AttributeError: strip"
  | some (.l _) => .error "AttributeError: strip"
  | some (.s fp) =>
    let fp := pyStripStr fp
    .ok [("file_path", .s fp),
         ("alt_text", (params.lookup "alt_text").getD (.s "")),
         ("title", (params.lookup "title").getD (.s (filenameToTitle fp)))]

/-- `ParameterExtractor.extract_query_params` (lines 117-153).  A
non-integer `limit` makes Python's `min` raise a `TypeError`. -/
def extract_query_params (params : Params) : Except String Params :=
  match params.lookup "query_type" with
  | none => .error "Query type is required"
  | some qt =>
    match (params.lookup "limit").getD (.n 10) with
    | .n lim =>
      .ok ([("query_type", qt),
            ("content_type", (params.lookup "content_type").getD (.s "article")),
            ("limit", .n (min lim 100))]
        ++ (match params.lookup "search_term" with
            | some v => [("search_term", pvalCleanText v)] | none => [])
        ++ (match params.lookup "role" with
            | some v => [("role", v)] | none => [])
        ++ (match params.lookup "tags" with
            | some v => [("tags", .l (extractTags v))] | none => [])
        ++ (match params.lookup "query" with
            | some v => [("query", v)] | none => [])
        ++ (match params.lookup "variables" with
            | some v => [("variables", v)] | none => []))
    | _ => .error "TypeError: min"

/-- `ParameterExtractor.extract_site_params` (lines 155-176). -/
def extract_site_params (params : Params) : Except String Params :=
  match params.lookup "project_name" with
  | none => .error "Project name is required"
  | some pn =>
    .ok ([("project_name", .s (cleanProjectNameP pn)),
          ("platform", (params.lookup "platform").getD (.s "ddev"))]
      ++ (match params.lookup "directory" with
          | some v => [("directory", v)] | none => [])
      ++ (match params.lookup "domain" with
          | some v => [("domain", v)] | none => []))

/-! ## Auxiliary definitions used by the proofs -/

def joinTok : List (List Char) → List Char
  | [] => []
  | [t] => t
  | t :: ts => t ++ '-' :: joinTok ts

def optHead (l : List Char) : List Char :=
  if l.head?.any (fun c => !(isLD c)) then ['-'] else []

def optLast (l : List Char) : List Char :=
  if !(runsBy isLD l).isEmpty && l.getLast?.any (fun c => !(isLD c)) then ['-'] else []

/-- The closed intent vocabulary of the pattern table. -/
def intentVocab (s : String) : Bool :=
  ["create-post", "edit-node", "delete-node", "upload-media", "run-drush",
   "query-graphql", "create-site", "start-site", "stop-site", "restart-site",
   "status-site"].contains s

/-- The vocabulary together with the fallback's `unknown`. -/
def intentVocabU (s : String) : Bool := intentVocab s || s = "unknown"

/-- A provider whose reply decodes to an out-of-vocabulary intent. -/
def envBogus : AIEnv := ⟨fun _ => .parsed (some "make-coffee") none⟩

/-- A provider whose call always raises. -/
def envFail : AIEnv := ⟨fun _ => .fail⟩

/-- Python `str.upper()` on the ASCII strings at stake. -/
def pyUpper (s : String) : String := ⟨s.data.map Char.toUpper⟩

/-! ## Character-level facts about lowercasing -/

theorem char_toNat_inj {a b : Char} (h : a.toNat = b.toNat) : a = b :=
  Char.ofNat_toNat a ▸ Char.ofNat_toNat b ▸ congrArg Char.ofNat h

theorem char_eq_iff_toNat {a b : Char} : a = b ↔ a.toNat = b.toNat :=
  ⟨fun h => h ▸ rfl, char_toNat_inj⟩

theorem char_ofNat_toNat_valid {n : Nat} (h : n.isValidChar) :
    (Char.ofNat n).toNat = n := by
  simp [Char.ofNat, h, Char.ofNatAux, Char.toNat, UInt32.toNat]

theorem pyLowerChar_spec (c : Char) :
    pyLowerChar c = c ∨
      (65 ≤ c.toNat ∧ c.toNat ≤ 90 ∧ (pyLowerChar c).toNat = c.toNat + 32) := by
  unfold pyLowerChar Char.toLower
  by_cases h : c.toNat ≥ 65 ∧ c.toNat ≤ 90
  · right
    refine ⟨h.1, h.2, ?_⟩
    simp only [h, if_true, ge_iff_le, and_self, if_pos]
    exact char_ofNat_toNat_valid (Or.inl (by omega))
  · left
    simp only [h, if_false, if_neg]

theorem pyIsSpace_iff_toNat (c : Char) :
    pyIsSpace c = true ↔
      (c.toNat = 32 ∨ c.toNat = 9 ∨ c.toNat = 10 ∨ c.toNat = 13 ∨
       c.toNat = 11 ∨ c.toNat = 12) := by
  unfold pyIsSpace
  simp only [Bool.or_eq_true, decide_eq_true_eq, char_eq_iff_toNat,
    show (' ' : Char).toNat = 32 from by decide, show ('\t' : Char).toNat = 9 from by decide,
    show ('\n' : Char).toNat = 10 from by decide, show ('\x0d' : Char).toNat = 13 from by decide,
    show ('\x0b' : Char).toNat = 11 from by decide, show ('\x0c' : Char).toNat = 12 from by decide]
  tauto

theorem pyLowerChar_isSpace (c : Char) : pyIsSpace (pyLowerChar c) = pyIsSpace c := by
  rcases pyLowerChar_spec c with h | ⟨h1, h2, h3⟩
  · rw [h]
  · have l1 : pyIsSpace (pyLowerChar c) = false := by
      rw [Bool.eq_false_iff]
      intro hw
      rw [pyIsSpace_iff_toNat] at hw
      omega
    have l2 : pyIsSpace c = false := by
      rw [Bool.eq_false_iff]
      intro hw
      rw [pyIsSpace_iff_toNat] at hw
      omega
    rw [l1, l2]

/-- Characters outside both letter ranges are fixed points of lowercasing,
and nothing lowercases onto them. -/
theorem pyLowerChar_eq_fix {q : Char}
    (hq : q.toNat < 65 ∨ (90 < q.toNat ∧ q.toNat < 97) ∨ 122 < q.toNat)
    (c : Char) : pyLowerChar c = q ↔ c = q := by
  rcases pyLowerChar_spec c with h | ⟨h1, h2, h3⟩
  · rw [h]
  · constructor
    · intro he
      exfalso
      rw [he] at h3
      omega
    · intro he
      exfalso
      rw [he] at h1 h2
      omega

theorem quote_toNat_d : ('"' : Char).toNat = 34 := by decide
theorem quote_toNat_s : ('\'' : Char).toNat = 39 := by decide

theorem pyLowerChar_eq_dquote (c : Char) : (pyLowerChar c = '"') ↔ (c = '"') :=
  pyLowerChar_eq_fix (by rw [quote_toNat_d]; omega) c

theorem pyLowerChar_eq_squote (c : Char) : (pyLowerChar c = '\'') ↔ (c = '\'') :=
  pyLowerChar_eq_fix (by rw [quote_toNat_s]; omega) c

/-! ## Runs of kept characters: basic lemmas -/

theorem runsBy_cons_eq (p : Char → Bool) (c : Char) (cs : List Char) :
    runsBy p (c :: cs) = runsByF p c cs.head? (runsBy p cs) := rfl

theorem runsBy_cons_break {p : Char → Bool} {b : Char} (hb : p b = false)
    (l : List Char) : runsBy p (b :: l) = runsBy p l := by
  rw [runsBy_cons_eq]
  simp [runsByF, hb]

theorem runsBy_all_break {p : Char → Bool} {l : List Char}
    (h : ∀ x ∈ l, p x = false) : runsBy p l = [] := by
  induction l with
  | nil => rfl
  | cons c cs ih =>
    rw [runsBy_cons_break (h c (by simp))]
    exact ih (fun x hx => h x (by simp [hx]))

theorem runsBy_cons_congr {p : Char → Bool} (c : Char) {X Y : List Char}
    (hh : X.head? = Y.head?) (hr : runsBy p X = runsBy p Y) :
    runsBy p (c :: X) = runsBy p (c :: Y) := by
  rw [runsBy_cons_eq, runsBy_cons_eq, hh, hr]

theorem runsBy_cons_keep {p : Char → Bool} {c : Char} (hc : p c = true)
    (cs : List Char) : ∃ t ts, runsBy p (c :: cs) = (c :: t) :: ts := by
  rw [runsBy_cons_eq]
  simp only [runsByF, hc, if_true]
  cases hh : cs.head? with
  | none => exact ⟨[], [], rfl⟩
  | some d =>
    cases hd : p d with
    | true =>
      simp only [hd, if_true]
      cases hr : runsBy p cs with
      | nil => exact ⟨[], [], rfl⟩
      | cons t ts =>
        cases t with
        | nil => exact ⟨[], ts, rfl⟩
        | cons x t' => exact ⟨x :: t', ts, rfl⟩
    | false => exact ⟨[], runsBy p cs, by simp [hd]⟩

theorem runsBy_nil_all_break {p : Char → Bool} :
    ∀ {l : List Char}, runsBy p l = [] → ∀ x ∈ l, p x = false := by
  intro l
  induction l with
  | nil => intro _ x hx; cases hx
  | cons c cs ih =>
    intro h x hx
    cases hc : p c with
    | true =>
      obtain ⟨t, ts, ht⟩ := runsBy_cons_keep hc cs
      rw [ht] at h
      cases h
    | false =>
      rw [runsBy_cons_break hc] at h
      rcases List.mem_cons.mp hx with rfl | hx'
      · exact hc
      · exact ih h x hx'

theorem runsBy_append_break {p : Char → Bool} {b : Char} (hb : p b = false) :
    ∀ l, runsBy p (l ++ [b]) = runsBy p l := by
  intro l
  induction l with
  | nil => simpa using runsBy_cons_break hb []
  | cons c cs ih =>
    rw [List.cons_append]
    cases cs with
    | nil =>
      cases hc : p c with
      | false =>
        rw [runsBy_cons_break hc, runsBy_cons_break hc]
        exact ih
      | true => simp [runsBy_cons_eq, runsByF, hc, hb, runsBy]
    | cons d cs' => exact runsBy_cons_congr c (by simp) ih

theorem runsBy_dropWhile {p q : Char → Bool} (h : ∀ c, q c = true → p c = false) :
    ∀ l, runsBy p (List.dropWhile q l) = runsBy p l := by
  intro l
  induction l with
  | nil => rfl
  | cons c cs ih =>
    cases hq : q c with
    | true => rw [List.dropWhile_cons_of_pos hq, ih, runsBy_cons_break (h c hq)]
    | false => rw [List.dropWhile_cons_of_neg (by simp [hq])]

theorem runsBy_dropTrail {p q : Char → Bool} (h : ∀ c, q c = true → p c = false)
    (l : List Char) :
    runsBy p ((l.reverse.dropWhile q).reverse) = runsBy p l := by
  induction l using List.reverseRecOn with
  | nil => rfl
  | append_singleton xs b ih =>
    cases hq : q b with
    | true =>
      rw [List.reverse_append, List.reverse_singleton, List.singleton_append,
        List.dropWhile_cons_of_pos hq, ih, runsBy_append_break (h b hq)]
    | false =>
      rw [List.reverse_append, List.reverse_singleton, List.singleton_append,
        List.dropWhile_cons_of_neg (by simp [hq]), List.reverse_cons,
        List.reverse_reverse]

theorem runsBy_strip {p q : Char → Bool} (h : ∀ c, q c = true → p c = false)
    (l : List Char) :
    runsBy p (((l.dropWhile q).reverse.dropWhile q).reverse) = runsBy p l := by
  rw [runsBy_dropTrail h, runsBy_dropWhile h]

/-! ## Quote stripping and whitespace joining preserve kept runs -/

theorem runsBy_unquote {p : Char → Bool} (hd : p '"' = false) (hs : p '\'' = false)
    (l : List Char) : runsBy p (unquote l) = runsBy p l := by
  unfold unquote
  by_cases hw : (wrappedIn '"' l || wrappedIn '\'' l) = true
  · rw [if_pos hw]
    cases l with
    | nil => simp [wrappedIn] at hw
    | cons c cs =>
      have hcq : c = '"' ∨ c = '\'' := by
        simp only [wrappedIn, Bool.or_eq_true, Bool.and_eq_true, decide_eq_true_eq] at hw
        rcases hw with ⟨h1, _⟩ | ⟨h1, _⟩
        · exact Or.inl h1
        · exact Or.inr h1
      have hcb : p c = false := by rcases hcq with rfl | rfl <;> assumption
      have hlq : (c :: cs).getLast? = some '"' ∨ (c :: cs).getLast? = some '\'' := by
        simp only [wrappedIn, Bool.or_eq_true, Bool.and_eq_true, decide_eq_true_eq] at hw
        rcases hw with ⟨_, h2⟩ | ⟨_, h2⟩
        · exact Or.inl h2
        · exact Or.inr h2
      rw [List.tail_cons, runsBy_cons_break hcb]
      rcases List.eq_nil_or_concat cs with rfl | ⟨ys, y, rfl⟩
      · rfl
      · simp only [List.concat_eq_append] at hlq ⊢
        have hyq : p y = false := by
          rw [show c :: (ys ++ [y]) = (c :: ys) ++ [y] from rfl] at hlq
          rcases hlq with h2 | h2 <;> rw [List.getLast?_concat] at h2 <;>
            simp only [Option.some_inj] at h2 <;> rw [h2] <;> assumption
        rw [List.dropLast_concat, runsBy_append_break hyq]
  · rw [if_neg hw]

theorem joinWS_consHead (c : Char) (w : List Char) (ws : List (List Char)) :
    joinWS ((c :: w) :: ws) = c :: joinWS (w :: ws) := by
  cases ws with
  | nil => rfl
  | cons w2 ws2 => rfl

theorem runsBy_joinWS {p : Char → Bool}
    (h : ∀ c, pyIsSpace c = true → p c = false) :
    ∀ l, runsBy p (joinWS (runsBy nwChar l)) = runsBy p l := by
  intro l
  induction l with
  | nil => rfl
  | cons c cs ih =>
    cases hws : pyIsSpace c with
    | true =>
      have hnc : nwChar c = false := by simp [nwChar, hws]
      rw [runsBy_cons_break hnc, runsBy_cons_break (h c hws), ih]
    | false =>
      have hnc : nwChar c = true := by simp [nwChar, hws]
      cases cs with
      | nil => simp [runsBy, runsByF, hnc, joinWS]
      | cons d cs' =>
        cases hdws : pyIsSpace d with
        | false =>
          have hnd : nwChar d = true := by simp [nwChar, hdws]
          have hkeep : runsBy nwChar (c :: d :: cs')
              = consRun c (runsBy nwChar (d :: cs')) := by
            rw [runsBy_cons_eq nwChar c (d :: cs')]
            simp [runsByF, hnc, hnd]
          rw [hkeep]
          obtain ⟨t, ts, ht⟩ := runsBy_cons_keep hnd cs'
          rw [ht]
          simp only [consRun]
          rw [joinWS_consHead]
          refine runsBy_cons_congr c ?_ ?_
          · rw [joinWS_consHead]
            rfl
          · rw [← ht, ih]
        | true =>
          have hnd : nwChar d = false := by simp [nwChar, hdws]
          have hpd : p d = false := h d hdws
          have hsplit : runsBy nwChar (c :: d :: cs')
              = [c] :: runsBy nwChar (d :: cs') := by
            rw [runsBy_cons_eq nwChar c (d :: cs')]
            simp [runsByF, hnc, hnd]
          rw [hsplit]
          cases hr : runsBy nwChar (d :: cs') with
          | nil =>
            have hall : ∀ x ∈ (d :: cs'), pyIsSpace x = true := by
              intro x hx
              have := runsBy_nil_all_break hr x hx
              simpa [nwChar] using this
            have hrp : runsBy p (d :: cs') = [] :=
              runsBy_all_break (fun x hx => h x (hall x hx))
            have hrp2 : runsBy p cs' = [] := by
              rw [← runsBy_cons_break hpd]
              exact hrp
            rw [show joinWS [[c]] = [c] from rfl, runsBy_cons_eq p c (d :: cs'),
              runsBy_cons_eq p c []]
            simp [runsByF, hrp2, hpd, runsBy]
          | cons t1 ts1 =>
            rw [show joinWS ([c] :: t1 :: ts1) = c :: ' ' :: joinWS (t1 :: ts1) from rfl]
            rw [hr] at ih
            have hsp : p ' ' = false := h ' ' (by decide)
            have htl : runsBy p (' ' :: joinWS (t1 :: ts1)) = runsBy p (d :: cs') := by
              rw [runsBy_cons_break hsp, ih]
            rw [runsBy_cons_eq p c (' ' :: joinWS (t1 :: ts1)), runsBy_cons_eq p c (d :: cs'),
              htl]
            simp [runsByF, hsp, hpd]

theorem runsBy_cleanText {p : Char → Bool}
    (hws : ∀ c, pyIsSpace c = true → p c = false)
    (hd : p '"' = false) (hs : p '\'' = false) (l : List Char) :
    runsBy p (cleanTextList l) = runsBy p l := by
  unfold cleanTextList pyStripList
  rw [runsBy_strip hws, runsBy_unquote hd hs, runsBy_joinWS hws]

/-! ## Lowercasing commutes with `_clean_text` -/

theorem consRun_map (f : Char → Char) (c : Char) (ts : List (List Char)) :
    consRun (f c) (ts.map (List.map f)) = (consRun c ts).map (List.map f) := by
  cases ts <;> simp [consRun]

theorem runsBy_map {p q : Char → Bool} {f : Char → Char} (h : ∀ c, p (f c) = q c) :
    ∀ l, runsBy p (l.map f) = (runsBy q l).map (List.map f) := by
  intro l
  induction l with
  | nil => rfl
  | cons c cs ih =>
    rw [List.map_cons, runsBy_cons_eq, runsBy_cons_eq, List.head?_map, ih]
    cases hh : cs.head? with
    | none => cases hqc : q c <;> simp [runsByF, h c, hqc]
    | some d =>
      cases hqc : q c <;> cases hqd : q d <;>
        simp [runsByF, h c, h d, hqc, hqd, consRun_map]

theorem joinWS_map {f : Char → Char} (hf : f ' ' = ' ') :
    ∀ ws : List (List Char), joinWS (ws.map (List.map f)) = (joinWS ws).map f := by
  intro ws
  induction ws with
  | nil => rfl
  | cons w ws ih =>
    cases ws with
    | nil => rfl
    | cons w2 ws2 =>
      show List.map f w ++ ' ' :: joinWS ((w2 :: ws2).map (List.map f))
          = (w ++ ' ' :: joinWS (w2 :: ws2)).map f
      rw [ih, List.map_append, List.map_cons, hf]

theorem wrappedIn_map_lower {q : Char} (hq : ∀ c, (pyLowerChar c = q) ↔ (c = q))
    (l : List Char) : wrappedIn q (l.map pyLowerChar) = wrappedIn q l := by
  cases l with
  | nil => rfl
  | cons c cs =>
    simp only [List.map_cons, wrappedIn]
    have h1 : (decide (pyLowerChar c = q)) = decide (c = q) := by
      simp [hq c]
    have h2 : (decide ((pyLowerChar c :: cs.map pyLowerChar).getLast? = some q))
        = decide ((c :: cs).getLast? = some q) := by
      rw [show pyLowerChar c :: cs.map pyLowerChar = (c :: cs).map pyLowerChar from rfl,
        List.getLast?_map]
      cases hgl : (c :: cs).getLast? with
      | none => simp
      | some y => simp [hq y]
    rw [h1, h2]

theorem unquote_map_lower (l : List Char) :
    unquote (l.map pyLowerChar) = (unquote l).map pyLowerChar := by
  unfold unquote
  rw [wrappedIn_map_lower pyLowerChar_eq_dquote, wrappedIn_map_lower pyLowerChar_eq_squote]
  by_cases hw : (wrappedIn '"' l || wrappedIn '\'' l) = true
  · rw [if_pos hw, if_pos hw, ← List.map_tail, List.map_dropLast]
  · rw [if_neg hw, if_neg hw]

theorem pyStripList_map_lower (l : List Char) :
    pyStripList (l.map pyLowerChar) = (pyStripList l).map pyLowerChar := by
  have hcomp : (pyIsSpace ∘ pyLowerChar) = pyIsSpace := by
    funext c
    exact pyLowerChar_isSpace c
  unfold pyStripList
  rw [List.dropWhile_map, hcomp, ← List.map_reverse, List.dropWhile_map, hcomp,
    ← List.map_reverse]

theorem cleanTextList_map_lower (l : List Char) :
    cleanTextList (l.map pyLowerChar) = (cleanTextList l).map pyLowerChar := by
  unfold cleanTextList
  rw [@runsBy_map nwChar nwChar pyLowerChar (fun c => by simp [nwChar, pyLowerChar_isSpace c]),
    joinWS_map (by decide), unquote_map_lower, pyStripList_map_lower]

/-! ## Characterizing the slug pipeline by letter/digit runs -/

theorem mchar_eq (c : Char) :
    (if slugKeep c then c else '-') = (if isLD c then c else '-') := by
  cases hLD : isLD c with
  | true => simp [slugKeep, hLD]
  | false =>
    by_cases hH : c = '-'
    · simp [slugKeep, hLD, hH]
    · simp [slugKeep, hLD, hH]

theorem ld_ne_hyphen {c : Char} (h : isLD c = true) : c ≠ '-' := by
  intro he
  rw [he] at h
  simp [isLD] at h

theorem collapseH_cons_eq (c : Char) (cs : List Char) :
    collapseH (c :: cs) = collapseF c cs.head? (collapseH cs) := rfl

theorem slugMap_cons (c : Char) (cs : List Char) :
    slugMap (c :: cs) = (if isLD c then c else '-') :: slugMap cs := by
  simp only [slugMap, List.map_cons, mchar_eq]

theorem slugMap_head? (cs : List Char) :
    (slugMap cs).head? = cs.head?.map (fun c => if isLD c then c else '-') := by
  rw [show slugMap cs = cs.map (fun c => if slugKeep c then c else '-') from rfl,
    List.head?_map]
  cases cs.head? with
  | none => rfl
  | some d => simp [mchar_eq]

theorem joinTok_consHead (c : Char) (t : List Char) (ts : List (List Char)) :
    joinTok ((c :: t) :: ts) = c :: joinTok (t :: ts) := by
  cases ts <;> rfl

theorem runsBy_ne_nil_of_head {p : Char → Bool} {c : Char} (hc : p c = true)
    (cs : List Char) : runsBy p (c :: cs) ≠ [] := by
  obtain ⟨t, ts, ht⟩ := runsBy_cons_keep hc cs
  rw [ht]
  simp

theorem getLast_break_of_runs_nil {l : List Char} (hne : l ≠ [])
    (hr : runsBy isLD l = []) : l.getLast?.any (fun c => !(isLD c)) = true := by
  rw [List.getLast?_eq_getLast l hne]
  have hmem := List.getLast_mem hne
  have := runsBy_nil_all_break hr _ hmem
  simp [this]

theorem slug_collapse_eq (l : List Char) :
    collapseH (slugMap l) = optHead l ++ joinTok (runsBy isLD l) ++ optLast l := by
  induction l with
  | nil => rfl
  | cons c cs ih =>
    cases cs with
    | nil =>
      cases hLD : isLD c with
      | true =>
        have h1 : slugMap [c] = [c] := by
          rw [slugMap_cons]
          simp [hLD, slugMap]
        have h2 : runsBy isLD [c] = [[c]] := by
          rw [runsBy_cons_eq]
          simp [runsByF, hLD, runsBy]
        rw [h1, h2]
        simp [collapseH, collapseF, optHead, optLast, joinTok, hLD, h2]
      | false =>
        have h1 : slugMap [c] = ['-'] := by
          rw [slugMap_cons]
          simp [hLD, slugMap]
        have h2 : runsBy isLD [c] = [] := by
          rw [runsBy_cons_break hLD]
          rfl
        rw [h1, h2]
        simp [collapseH, collapseF, optHead, optLast, joinTok, hLD, h2]
    | cons d cs' =>
      have hstep : collapseH (slugMap (c :: d :: cs'))
          = collapseF (if isLD c then c else '-') (some (if isLD d then d else '-'))
              (collapseH (slugMap (d :: cs'))) := by
        rw [slugMap_cons, collapseH_cons_eq, slugMap_head?]
        rfl
      cases hLD : isLD c with
      | true =>
        have hcne : c ≠ '-' := ld_ne_hyphen hLD
        have hstep2 : collapseH (slugMap (c :: d :: cs'))
            = c :: collapseH (slugMap (d :: cs')) := by
          rw [hstep, hLD]
          simp [collapseF, hcne]
        rw [hstep2, ih]
        have hOH : optHead (c :: d :: cs') = [] := by simp [optHead, hLD]
        cases hLDd : isLD d with
        | true =>
          obtain ⟨t, ts, ht⟩ := runsBy_cons_keep hLDd cs'
          have hrc : runsBy isLD (c :: d :: cs') = (c :: d :: t) :: ts := by
            rw [runsBy_cons_eq]
            simp only [List.head?_cons, runsByF, hLD, hLDd, if_true, ht, consRun]
          have hOH' : optHead (d :: cs') = [] := by simp [optHead, hLDd]
          have hOL : optLast (c :: d :: cs') = optLast (d :: cs') := by
            simp only [optLast, List.getLast?_cons_cons, hrc, ht]
            rfl
          rw [hOH, hOH', hrc, ht, hOL]
          simp [joinTok_consHead]
        | false =>
          have hsplitr : runsBy isLD (c :: d :: cs') = [c] :: runsBy isLD (d :: cs') := by
            rw [runsBy_cons_eq]
            simp only [List.head?_cons, runsByF, hLD, hLDd, if_true, Bool.false_eq_true,
              if_false]
          have hOH' : optHead (d :: cs') = ['-'] := by simp [optHead, hLDd]
          rw [hOH, hOH', hsplitr]
          cases hr : runsBy isLD (d :: cs') with
          | nil =>
            have hOL' : optLast (d :: cs') = [] := by simp [optLast, hr]
            have hOL : optLast (c :: d :: cs') = ['-'] := by
              have hgl := getLast_break_of_runs_nil (by simp) hr
              simp only [optLast, hsplitr, hr, List.getLast?_cons_cons, hgl]
              rfl
            rw [hOL, hOL']
            simp [joinTok]
          | cons t1 ts1 =>
            have hOL : optLast (c :: d :: cs') = optLast (d :: cs') := by
              simp only [optLast, hsplitr, hr, List.getLast?_cons_cons]
              rfl
            rw [hOL]
            simp [joinTok]
      | false =>
        have hOH : optHead (c :: d :: cs') = ['-'] := by simp [optHead, hLD]
        have hrc : runsBy isLD (c :: d :: cs') = runsBy isLD (d :: cs') := by
          exact runsBy_cons_break hLD _
        cases hLDd : isLD d with
        | false =>
          have hstep2 : collapseH (slugMap (c :: d :: cs'))
              = collapseH (slugMap (d :: cs')) := by
            rw [hstep, hLD, hLDd]
            simp [collapseF]
          have hOH' : optHead (d :: cs') = ['-'] := by simp [optHead, hLDd]
          have hOL : optLast (c :: d :: cs') = optLast (d :: cs') := by
            simp only [optLast, hrc, List.getLast?_cons_cons]
          rw [hstep2, ih, hOH, hOH', hrc, hOL]
        | true =>
          have hdne : d ≠ '-' := ld_ne_hyphen hLDd
          have hstep2 : collapseH (slugMap (c :: d :: cs'))
              = '-' :: collapseH (slugMap (d :: cs')) := by
            rw [hstep, hLD, hLDd]
            simp [collapseF, hdne]
          have hOH' : optHead (d :: cs') = [] := by simp [optHead, hLDd]
          have hOL : optLast (c :: d :: cs') = optLast (d :: cs') := by
            simp only [optLast, hrc, List.getLast?_cons_cons]
          rw [hstep2, ih, hOH, hOH', hrc, hOL]
          simp

theorem char_le_iff_toNat {a b : Char} : a ≤ b ↔ a.toNat ≤ b.toNat := Iff.rfl

theorem isLD_iff_toNat (c : Char) :
    isLD c = true ↔
      (97 ≤ c.toNat ∧ c.toNat ≤ 122) ∨ (48 ≤ c.toNat ∧ c.toNat ≤ 57) := by
  unfold isLD
  simp only [Bool.or_eq_true, Bool.and_eq_true, decide_eq_true_eq, char_le_iff_toNat,
    show ('a' : Char).toNat = 97 from by decide, show ('z' : Char).toNat = 122 from by decide,
    show ('0' : Char).toNat = 48 from by decide, show ('9' : Char).toNat = 57 from by decide]

theorem isSpace_not_LD {c : Char} (h : pyIsSpace c = true) : isLD c = false := by
  rw [pyIsSpace_iff_toNat] at h
  rw [Bool.eq_false_iff]
  intro hLD
  rw [isLD_iff_toNat] at hLD
  omega

theorem runsBy_sound {p : Char → Bool} :
    ∀ {l : List Char}, ∀ t ∈ runsBy p l, t ≠ [] ∧ ∀ c ∈ t, p c = true := by
  intro l
  induction l with
  | nil => intro t ht; cases ht
  | cons c cs ih =>
    intro t ht
    rw [runsBy_cons_eq] at ht
    simp only [runsByF] at ht
    cases hc : p c with
    | false =>
      rw [hc] at ht
      simp only [Bool.false_eq_true, if_false] at ht
      exact ih t ht
    | true =>
      rw [hc] at ht
      simp only [if_true] at ht
      cases hh : cs.head? with
      | none =>
        rw [hh] at ht
        simp only [List.mem_singleton] at ht
        subst ht
        exact ⟨by simp, by intro x hx; simp at hx; subst hx; exact hc⟩
      | some d =>
        rw [hh] at ht
        dsimp only at ht
        cases hd : p d with
        | false =>
          rw [hd] at ht
          simp only [Bool.false_eq_true, if_false, List.mem_cons] at ht
          rcases ht with rfl | ht'
          · exact ⟨by simp, by intro x hx; simp at hx; subst hx; exact hc⟩
          · exact ih t ht'
        | true =>
          rw [hd] at ht
          simp only [if_true] at ht
          cases hr : runsBy p cs with
          | nil =>
            rw [hr] at ht
            simp only [consRun, List.mem_singleton] at ht
            subst ht
            exact ⟨by simp, by intro x hx; simp at hx; subst hx; exact hc⟩
          | cons t0 ts0 =>
            rw [hr] at ht
            simp only [consRun, List.mem_cons] at ht
            rcases ht with rfl | ht'
            · constructor
              · simp
              · intro x hx
                rcases List.mem_cons.mp hx with rfl | hx'
                · exact hc
                · exact (ih t0 (by rw [hr]; simp)).2 x hx'
            · exact ih t (by rw [hr]; simp [ht'])

theorem joinTok_facts {p : Char → Bool} :
    ∀ ts : List (List Char), ts ≠ [] →
      (∀ u ∈ ts, u ≠ [] ∧ ∀ c ∈ u, p c = true) →
      joinTok ts ≠ [] ∧ (∀ x, (joinTok ts).head? = some x → p x = true)
        ∧ (∀ x, (joinTok ts).getLast? = some x → p x = true) := by
  intro ts
  induction ts with
  | nil => intro h; cases h rfl
  | cons t ts2 ih =>
    intro _ hsound
    obtain ⟨htne, htall⟩ := hsound t (by simp)
    cases ts2 with
    | nil =>
      refine ⟨htne, ?_, ?_⟩
      · intro x hx
        apply htall
        cases t with
        | nil => cases htne rfl
        | cons a t' =>
          simp only [joinTok, List.head?_cons, Option.some_inj] at hx
          simp [hx]
      · intro x hx
        apply htall
        rw [show joinTok [t] = t from rfl, List.getLast?_eq_getLast t htne,
          Option.some_inj] at hx
        rw [← hx]
        exact List.getLast_mem htne
    | cons t2 ts3 =>
      have hrest := ih (by simp) (fun u hu => hsound u (by simp [hu]))
      refine ⟨?_, ?_, ?_⟩
      · rw [show joinTok (t :: t2 :: ts3) = t ++ '-' :: joinTok (t2 :: ts3) from rfl]
        simp
      · intro x hx
        rw [show joinTok (t :: t2 :: ts3) = t ++ '-' :: joinTok (t2 :: ts3) from rfl,
          List.head?_append_of_ne_nil _ htne] at hx
        apply htall
        cases t with
        | nil => cases htne rfl
        | cons a t' =>
          simp only [List.head?_cons, Option.some_inj] at hx
          simp [hx]
      · intro x hx
        rw [show joinTok (t :: t2 :: ts3) = t ++ '-' :: joinTok (t2 :: ts3) from rfl,
          List.getLast?_append_of_ne_nil _ (by simp)] at hx
        have : ('-' :: joinTok (t2 :: ts3)).getLast? = (joinTok (t2 :: ts3)).getLast? := by
          cases hj : joinTok (t2 :: ts3) with
          | nil => cases hrest.1 hj
          | cons y ys => rw [List.getLast?_cons_cons]
        rw [this] at hx
        exact hrest.2.2 x hx

theorem stripH_wrap {J oh ol : List Char} (hne : J ≠ [])
    (hh : ∀ x, J.head? = some x → x ≠ '-')
    (hl : ∀ x, J.getLast? = some x → x ≠ '-')
    (hoh : oh = [] ∨ oh = ['-']) (hol : ol = [] ∨ ol = ['-']) :
    stripH (oh ++ J ++ ol) = J := by
  cases J with
  | nil => cases hne rfl
  | cons j0 J' =>
    have hj0 : j0 ≠ '-' := hh j0 rfl
    have hstop : List.dropWhile (fun c => decide (c = '-'))
        ((j0 :: J') ++ ol) = (j0 :: J') ++ ol := by
      rw [List.cons_append, List.dropWhile_cons_of_neg (by simp [hj0])]
    have hd1 : List.dropWhile (fun c => decide (c = '-'))
        (oh ++ (j0 :: J') ++ ol) = (j0 :: J') ++ ol := by
      rcases hoh with rfl | rfl
      · rw [List.nil_append]
        exact hstop
      · rw [List.append_assoc, List.singleton_append,
          List.dropWhile_cons_of_pos (by simp)]
        exact hstop
    obtain ⟨y, ys, hyr⟩ : ∃ y ys, (j0 :: J').reverse = y :: ys := by
      cases hj : (j0 :: J').reverse with
      | nil =>
        exfalso
        have := congrArg List.length hj
        simp at this
      | cons y ys => exact ⟨y, ys, rfl⟩
    have hy : y ≠ '-' := hl y (by rw [← List.head?_reverse, hyr, List.head?_cons])
    have hd2 : List.dropWhile (fun c => decide (c = '-'))
        ((j0 :: J') ++ ol).reverse = (j0 :: J').reverse := by
      rw [List.reverse_append]
      rcases hol with rfl | rfl
      · rw [List.reverse_nil, List.nil_append, hyr,
          List.dropWhile_cons_of_neg (by simp [hy]), ← hyr]
      · rw [List.reverse_singleton, List.singleton_append,
          List.dropWhile_cons_of_pos (by simp), hyr,
          List.dropWhile_cons_of_neg (by simp [hy]), ← hyr]
    unfold stripH
    rw [hd1, hd2, List.reverse_reverse]

theorem slug_strip_eq (l : List Char) :
    stripH (collapseH (slugMap l)) = joinTok (runsBy isLD l) := by
  rw [slug_collapse_eq]
  cases hr : runsBy isLD l with
  | nil =>
    have hOL : optLast l = [] := by simp [optLast, hr]
    rw [hOL]
    simp only [joinTok, List.append_nil]
    cases l with
    | nil => rfl
    | cons c cs =>
      have hLD : isLD c = false := by
        have := runsBy_nil_all_break hr c (by simp)
        exact this
      rw [show optHead (c :: cs) = ['-'] by simp [optHead, hLD]]
      rfl
  | cons t ts =>
    have hsound : ∀ u ∈ runsBy isLD l, u ≠ [] ∧ ∀ c ∈ u, isLD c = true :=
      fun u hu => runsBy_sound u hu
    rw [hr] at hsound
    obtain ⟨hne, hhead, hlast⟩ := joinTok_facts (t :: ts) (by simp) hsound
    have hh' : ∀ x, (joinTok (t :: ts)).head? = some x → x ≠ '-' := by
      intro x hx
      exact ld_ne_hyphen (hhead x hx)
    have hl' : ∀ x, (joinTok (t :: ts)).getLast? = some x → x ≠ '-' := by
      intro x hx
      exact ld_ne_hyphen (hlast x hx)
    have hoh : optHead l = [] ∨ optHead l = ['-'] := by
      unfold optHead
      split
      · exact Or.inr rfl
      · exact Or.inl rfl
    have hol : optLast l = [] ∨ optLast l = ['-'] := by
      unfold optLast
      split
      · exact Or.inr rfl
      · exact Or.inl rfl
    exact stripH_wrap hne hh' hl' hoh hol

/-- `_clean_project_name` computes exactly the specification's slug: the
whitespace/quote pre-cleaning of `_clean_text` never changes the
letter/digit runs that determine the final slug. -/
theorem cleanProjectName_eq_specSlug (s : String) : cleanProjectName s = specSlug s := by
  unfold cleanProjectName specSlug
  have hlow : pyLowerList (cleanTextList s.data)
      = cleanTextList (pyLowerList s.data) := by
    rw [show pyLowerList (cleanTextList s.data)
        = (cleanTextList s.data).map pyLowerChar from rfl,
      ← cleanTextList_map_lower]
    rfl
  congr 1
  rw [slug_strip_eq, slug_strip_eq, hlow,
    runsBy_cleanText (fun c hc => isSpace_not_LD hc) (by decide) (by decide)]

/-! ## Facts about the rule scan -/

theorem findRule_spec :
    ∀ (tbl : List Rule) (i : Nat) (s : List Char) (k : Nat) (it pt : String)
      (caps : Caps),
      findRule i tbl s = some (k, it, pt, caps) →
      ∃ (m : Nat) (hm : m < tbl.length),
        k = i + m ∧ (tbl.get ⟨m, hm⟩).intent = it ∧ (tbl.get ⟨m, hm⟩).ptype = pt ∧
        reSearch (tbl.get ⟨m, hm⟩).pat s = some caps ∧
        ∀ j (hj : j < m), reSearch (tbl.get ⟨j, Nat.lt_trans hj hm⟩).pat s = none := by
  intro tbl
  induction tbl with
  | nil =>
    intro i s k it pt caps h
    cases h
  | cons r rs ih =>
    intro i s k it pt caps h
    unfold findRule at h
    cases hsr : reSearch r.pat s with
    | some caps0 =>
      rw [hsr] at h
      injection h with h'
      obtain ⟨rfl, rfl, rfl, rfl⟩ : i = k ∧ r.intent = it ∧ r.ptype = pt ∧ caps0 = caps := by
        simpa using h'
      refine ⟨0, by simp, by omega, rfl, rfl, hsr, ?_⟩
      intro j hj
      omega
    | none =>
      rw [hsr] at h
      obtain ⟨m, hm, hk, hint, hptp, hre, hmin⟩ := ih (i + 1) s k it pt caps h
      refine ⟨m + 1, by simpa using Nat.succ_lt_succ hm, by omega, ?_, ?_, ?_, ?_⟩
      · simpa using hint
      · simpa using hptp
      · simpa using hre
      · intro j hj
        cases j with
        | zero => simpa using hsr
        | succ j2 =>
          have := hmin j2 (by omega)
          simpa using this

theorem commandPatterns_intent_vocab :
    commandPatterns.all (fun r => intentVocab r.intent) = true := by decide

theorem commandPatterns_createsite_ptype :
    commandPatterns.all
      (fun r => !(r.intent = "create-site") || (r.ptype = "project")) = true := by decide

theorem mem_intent_vocab {r : Rule} (hr : r ∈ commandPatterns) :
    intentVocab r.intent = true := by
  have h := commandPatterns_intent_vocab
  rw [List.all_eq_true] at h
  exact h r hr

theorem mem_createsite_ptype {r : Rule} (hr : r ∈ commandPatterns)
    (hint : r.intent = "create-site") : r.ptype = "project" := by
  have h := commandPatterns_createsite_ptype
  rw [List.all_eq_true] at h
  have := h r hr
  rw [hint] at this
  simpa using this

/-! ## Helper equations for `IntentParser.parse` -/

theorem parse_norm (env : AIEnv) (t : String) :
    IntentParser.parse env t =
      (match findRule 0 commandPatterns (pyNormalize t).data with
       | some (_, it, pt, cs) => extractParams it pt cs (pyNormalize t)
       | none => aiParseFallback env (pyNormalize t)) := rfl

theorem parse_eq_extract {env : AIEnv} {t : String} {k : Nat} {it pt : String}
    {caps : Caps}
    (h : findRule 0 commandPatterns (pyNormalize t).data = some (k, it, pt, caps)) :
    IntentParser.parse env t = extractParams it pt caps (pyNormalize t) := by
  rw [parse_norm, h]

theorem parse_eq_fallback {env : AIEnv} {t : String}
    (h : findRule 0 commandPatterns (pyNormalize t).data = none) :
    IntentParser.parse env t = aiParseFallback env (pyNormalize t) := by
  rw [parse_norm, h]

theorem extractParams_fst (it pt : String) (caps : Caps) (o : String) :
    (extractParams it pt caps o).1 = it := rfl

/-! ## Claim theorems -/

/-- **C1** (counterexample): the claim that `parse` always returns an intent
from the closed vocabulary or `unknown` — including on the fallback path
with an arbitrary provider — is false: on "zzz" no pattern matches, and a
provider reply decoding to intent "make-coffee" is returned verbatim, an
intent outside the vocabulary and different from "unknown". -/
theorem C1_counterexample :
    IntentParser.parse envBogus "zzz" = ("make-coffee", []) ∧
      intentVocabU (IntentParser.parse envBogus "zzz").1 = false := by
  constructor
  · rfl
  · decide

/-- **C1** (amended): every result of `IntentParser.parse` either carries an
intent of the closed pattern-table vocabulary (pattern path), or is exactly
the fallback resolver's result, whose intent is the provider-supplied
string (defaulting to "unknown") without validation. -/
theorem C1_parse_intent_vocab_or_fallback (env : AIEnv) (t : String) :
    intentVocab (IntentParser.parse env t).1 = true ∨
      IntentParser.parse env t = aiParseFallback env (pyNormalize t) := by
  cases hfr : findRule 0 commandPatterns (pyNormalize t).data with
  | none => exact Or.inr (parse_eq_fallback hfr)
  | some q =>
    obtain ⟨k, it, pt, caps⟩ := q
    left
    rw [parse_eq_extract hfr, extractParams_fst]
    obtain ⟨m, hm, _, hint, _, _, _⟩ := findRule_spec _ 0 _ _ _ _ _ hfr
    have hv := mem_intent_vocab (List.get_mem commandPatterns m hm)
    rw [hint] at hv
    exact hv

/-- **C2**: the pattern table is scanned in declaration order and the first
match wins: whenever the scan selects the rule at index `k`, the pattern of
every earlier rule does not occur in the text, and the parse result is that
rule's extraction; in particular "restart my-site" is routed to
`restart-site` with project name "my-site" (never to the later `start-site`
rule, although "start my-site" also matches it). -/
theorem C2_first_match_wins :
    (∀ (s : List Char) (k : Nat) (it pt : String) (caps : Caps),
        findRule 0 commandPatterns s = some (k, it, pt, caps) →
        ∀ (j : Nat) (hj : j < commandPatterns.length), j < k →
          reSearch (commandPatterns.get ⟨j, hj⟩).pat s = none) ∧
    (∀ (env : AIEnv) (t : String) (k : Nat) (it pt : String) (caps : Caps),
        findRule 0 commandPatterns (pyNormalize t).data = some (k, it, pt, caps) →
        IntentParser.parse env t = extractParams it pt caps (pyNormalize t)) ∧
    (∀ env : AIEnv, IntentParser.parse env "restart my-site"
        = ("restart-site", [("project_name", PVal.s "my-site")])) := by
  refine ⟨?_, ?_, ?_⟩
  · intro s k it pt caps h j hj hjk
    obtain ⟨m, hm, hk, _, _, _, hmin⟩ := findRule_spec _ 0 _ _ _ _ _ h
    exact hmin j (by omega)
  · intro env t k it pt caps h
    exact parse_eq_extract h
  · intro env
    rfl

/-- **C2** (witness): at the concrete input "restart my-site" the scan
selects index 28 (the first `restart` rule); rule 0 indeed does not match,
and the parse result is `restart-site` with project name "my-site". -/
theorem C2_witness :
    reSearch (commandPatterns.get ⟨0, by decide⟩).pat "restart my-site".data = none ∧
    IntentParser.parse envFail "restart my-site"
      = ("restart-site", [("project_name", PVal.s "my-site")]) := by
  constructor
  · exact C2_first_match_wins.1 "restart my-site".data 28 "restart-site" "project"
      [(1, "my-site".data)] rfl 0 (by decide) (by decide)
  · exact C2_first_match_wins.2.2 envFail

/-- **C3**: `parse` is total, and when no pattern rule matches and the
fallback fails (provider error or unparseable JSON reply), it returns
`("unknown", {"raw_command": t})` with `t` the normalized input. -/
theorem C3_fallback_degrades (env : AIEnv) (t : String)
    (hs : findRule 0 commandPatterns (pyNormalize t).data = none)
    (hf : env.reply (pyNormalize t) = .fail ∨ env.reply (pyNormalize t) = .badJson) :
    IntentParser.parse env t = ("unknown", [("raw_command", PVal.s (pyNormalize t))]) := by
  rw [parse_eq_fallback hs]
  unfold aiParseFallback
  rcases hf with hf | hf <;> rw [hf]

/-- **C3** (witness): "zzz" matches no rule, and with an always-raising
provider the parse degrades to `("unknown", {"raw_command": "zzz"})`. -/
theorem C3_witness :
    findRule 0 commandPatterns (pyNormalize "zzz").data = none ∧
    IntentParser.parse envFail "zzz" = ("unknown", [("raw_command", PVal.s "zzz")]) := by
  refine ⟨rfl, ?_⟩
  exact C3_fallback_degrades envFail "zzz" rfl (Or.inl rfl)

/-- **C4** (counterexample): the two parser variants disagree on
"Clear Drupal cache": `IntentParser` maps it to drush command
`cache:clear`, while `NLParser` (main.py) maps the same input to
`cache:rebuild`, so there is no one consistent choice across the system. -/
theorem C4_counterexample :
    IntentParser.parse envFail "Clear Drupal cache"
        = ("run-drush", [("command", PVal.s "cache:clear")]) ∧
    NLParser.parse envFail "Clear Drupal cache"
        = ("run-drush", [("command", PVal.s "cache:rebuild")]) ∧
    (IntentParser.parse envFail "Clear Drupal cache").2.lookup "command"
      ≠ (NLParser.parse envFail "Clear Drupal cache").2.lookup "command" := by
  refine ⟨rfl, rfl, ?_⟩
  decide

/-- **C4** (amended): both variants return intent `run-drush` for
"Clear Drupal cache", but with different command values: `cache:clear`
from `IntentParser` and `cache:rebuild` from `NLParser`. -/
theorem C4_cache_command_variants (env : AIEnv) :
    IntentParser.parse env "Clear Drupal cache"
        = ("run-drush", [("command", PVal.s "cache:clear")]) ∧
    NLParser.parse env "Clear Drupal cache"
        = ("run-drush", [("command", PVal.s "cache:rebuild")]) :=
  ⟨rfl, rfl⟩

/-- **C5** (counterexample): `extract_query_params({"limit": 500})` and
`extract_query_params({})` do not return results with limits 100 and 10 —
both raise the missing-`query_type` validation error first. -/
theorem C5_counterexample :
    extract_query_params [("limit", PVal.n 500)] = .error "Query type is required" ∧
    extract_query_params ([] : Params) = .error "Query type is required" :=
  ⟨rfl, rfl⟩

/-- **C5** (amended): once the required `query_type` is present, the limit
is clamped to `min(requested, 100)` — 500 becomes 100 — and defaults to 10
when unspecified; without `query_type` the call errors. -/
theorem C5_limit_clamp (qt : PVal) (n : Int) :
    extract_query_params [("query_type", qt), ("limit", PVal.n n)]
        = .ok [("query_type", qt), ("content_type", PVal.s "article"),
               ("limit", PVal.n (min n 100))] ∧
    extract_query_params [("query_type", qt)]
        = .ok [("query_type", qt), ("content_type", PVal.s "article"),
               ("limit", PVal.n 10)] ∧
    extract_query_params [("query_type", qt), ("limit", PVal.n 500)]
        = .ok [("query_type", qt), ("content_type", PVal.s "article"),
               ("limit", PVal.n 100)] := by
  refine ⟨rfl, rfl, rfl⟩

/-- **C6**: `_clean_project_name` returns, for every input string, exactly
the slug described by the specification — lowercase, every character
outside `[a-z0-9-]` replaced by a hyphen, hyphen runs collapsed, and
leading/trailing hyphens stripped (the whitespace/quote pre-cleaning of
`_clean_text` never affects the result); in particular
`clean_project_name("My Cool Site!") = "my-cool-site"`. -/
theorem C6_clean_project_name_slug :
    (∀ s : String, cleanProjectName s = specSlug s) ∧
    cleanProjectName "My Cool Site!" = "my-cool-site" := by
  refine ⟨cleanProjectName_eq_specSlug, by decide⟩

/-- **C7**: whenever a create-site rule matches, capture group 1 (stripped)
becomes `project_name`, and `platform` is "lando" exactly when the literal
substring "lando" occurs anywhere in the normalized input text, otherwise
"ddev". -/
theorem C7_create_site_platform (env : AIEnv) (t : String) (k : Nat) (pt : String)
    (caps : Caps)
    (h : findRule 0 commandPatterns (pyNormalize t).data
        = some (k, "create-site", pt, caps)) :
    IntentParser.parse env t
      = ("create-site",
         [("project_name", PVal.s (pyStripStr (grpStr caps 1))),
          ("platform", PVal.s (if containsSub (pyNormalize t).data "lando".data
              then "lando" else "ddev"))]) ∧
    ((IntentParser.parse env t).2.lookup "platform" = some (PVal.s "lando") ↔
      containsSub (pyNormalize t).data "lando".data = true) := by
  obtain ⟨m, hm, _, hint, hptp, _, _⟩ := findRule_spec _ 0 _ _ _ _ _ h
  have hpt : pt = "project" := by
    rw [← hptp]
    exact mem_createsite_ptype (List.get_mem commandPatterns m hm) hint
  subst hpt
  have hp : IntentParser.parse env t
      = extractParams "create-site" "project" caps (pyNormalize t) :=
    parse_eq_extract h
  refine ⟨?_, ?_⟩
  · rw [hp]
    rfl
  · rw [hp]
    cases hc : containsSub (pyNormalize t).data "lando".data with
    | true =>
      constructor
      · intro _
        rfl
      · intro _
        show (extractParams "create-site" "project" caps (pyNormalize t)).2.lookup
            "platform" = some (PVal.s "lando")
        have : (extractParams "create-site" "project" caps (pyNormalize t)).2.lookup
            "platform" = some (PVal.s (if containsSub (pyNormalize t).data "lando".data
              then "lando" else "ddev")) := rfl
        rw [this, hc]
        rfl
    | false =>
      constructor
      · intro hcontra
        have : (extractParams "create-site" "project" caps (pyNormalize t)).2.lookup
            "platform" = some (PVal.s (if containsSub (pyNormalize t).data "lando".data
              then "lando" else "ddev")) := rfl
        rw [this, hc] at hcontra
        simp at hcontra
      · intro hcontra
        cases hcontra

/-- **C7** (witness): "create site named mysite with lando" hits a
create-site rule; group 1 gives project name "mysite", and since "lando"
occurs in the text, the platform is "lando". -/
theorem C7_witness :
    IntentParser.parse envFail "create site named mysite with lando"
      = ("create-site", [("project_name", PVal.s "mysite"),
                         ("platform", PVal.s "lando")]) := by
  have h := (C7_create_site_platform envFail "create site named mysite with lando" 24
      "project" [(1, "mysite".data)] rfl).1
  exact h

/-- **C8**: parsing is insensitive to casing of the input: any two inputs
with the same normalized (lowercased, stripped) text parse identically,
for any fallback-provider behaviour — in particular an input and its
uppercased form whenever they normalize alike. -/
theorem C8_case_insensitive (env : AIEnv) (s v : String)
    (h : pyNormalize v = pyNormalize s) :
    IntentParser.parse env v = IntentParser.parse env s := by
  rw [parse_norm, parse_norm, h]

/-- **C8** (witness): "Restart My-Site" and its uppercased form normalize
alike and parse identically. -/
theorem C8_witness :
    pyNormalize (pyUpper "Restart My-Site") = pyNormalize "Restart My-Site" ∧
    IntentParser.parse envFail (pyUpper "Restart My-Site")
      = IntentParser.parse envFail "Restart My-Site" :=
  ⟨by decide,
   C8_case_insensitive envFail "Restart My-Site" (pyUpper "Restart My-Site") (by decide)⟩

/-- **C9**: `extract_media_params` errors on a mapping without `file_path`
(in particular on `{}`), and with a string `file_path` present it never
errors: `alt_text` defaults to the empty string and `title` defaults to the
human-readable `_filename_to_title` form of the file name (extension
stripped, `_`/`-` runs to spaces, words capitalized). -/
theorem C9_media_params (ps : Params) (fp : String)
    (h : ps.lookup "file_path" = some (PVal.s fp)) :
    extract_media_params ([] : Params) = .error "File path is required for media upload" ∧
    extract_media_params ps
      = .ok [("file_path", PVal.s (pyStripStr fp)),
             ("alt_text", (ps.lookup "alt_text").getD (PVal.s "")),
             ("title", (ps.lookup "title").getD
                (PVal.s (filenameToTitle (pyStripStr fp))))] := by
  refine ⟨rfl, ?_⟩
  unfold extract_media_params
  rw [h]

/-- **C9** (witness): with only `file_path = "uploads/my_cool-photo.jpg"`,
extraction succeeds with empty alt text and title "My Cool Photo". -/
theorem C9_witness :
    ([("file_path", PVal.s "uploads/my_cool-photo.jpg")] : Params).lookup "file_path"
        = some (PVal.s "uploads/my_cool-photo.jpg") ∧
    extract_media_params [("file_path", PVal.s "uploads/my_cool-photo.jpg")]
      = .ok [("file_path", PVal.s "uploads/my_cool-photo.jpg"),
             ("alt_text", PVal.s ""), ("title", PVal.s "My Cool Photo")] := by
  refine ⟨rfl, ?_⟩
  have h := (C9_media_params [("file_path", PVal.s "uploads/my_cool-photo.jpg")]
      "uploads/my_cool-photo.jpg" rfl).2
  exact h.trans rfl

/-- **C10**: `extract_site_params` errors exactly when `project_name` is
absent — presence of the key suffices, with no non-emptiness check on the
slugified value, so `project_name = "!!!"` is accepted and slugifies to the
empty string. -/
theorem C10_site_params_presence_only :
    (∀ ps : Params, extract_site_params ps = .error "Project name is required"
        ↔ ps.lookup "project_name" = none) ∧
    extract_site_params [("project_name", PVal.s "!!!")]
      = .ok [("project_name", PVal.s ""), ("platform", PVal.s "ddev")] := by
  constructor
  · intro ps
    unfold extract_site_params
    cases hpn : ps.lookup "project_name" with
    | none => simp
    | some pn => simp
  · rfl
